import Mathlib

/-!
Verification of the Horizon browser control plane: a shallow embedding of
the URL gatekeeper (securityManager.js), the session registry
(sessionManager.js), and the tab lifecycle manager (tabManager.js),
together with proofs about the properties stated in the specification.

JavaScript strings are modelled as Lean strings; the handful of string
primitives the source uses (trim, toLowerCase, startsWith, includes,
endsWith) are modelled over the underlying character lists.  JavaScript
Map and Set values are modelled as association lists and duplicate-free
lists kept in insertion order, matching their iteration-order semantics.
Code that can throw is modelled with Except; try/catch is a match on the
Except value.
-/

/-- Characters treated as whitespace by the JavaScript trim used here
(space, tab, LF, CR, VT, FF; the exotic Unicode space classes are not
needed by any input considered). -/
def jsIsSpace (c : Char) : Bool :=
  c = ' ' || c = '\t' || c = '\n' || c = '\r' || c = Char.ofNat 11 || c = Char.ofNat 12

/-- Model of String.prototype.trim: strip leading and trailing whitespace. -/
def jsTrim (s : String) : String :=
  ⟨((s.data.dropWhile jsIsSpace).reverse.dropWhile jsIsSpace).reverse⟩

/-- Model of String.prototype.toLowerCase (ASCII range). -/
def jsToLower (s : String) : String :=
  ⟨s.data.map Char.toLower⟩

/-- Model of String.prototype.startsWith. -/
def jsStartsWith (s pre : String) : Bool :=
  pre.data.isPrefixOf s.data

/-- Model of String.prototype.endsWith. -/
def jsEndsWith (s suf : String) : Bool :=
  suf.data.isSuffixOf s.data

/-- Model of String.prototype.includes for a single-character needle
(the source only ever tests for a dot or a space). -/
def jsIncludes (s : String) (c : Char) : Bool :=
  s.data.contains c

/-- Characters left unescaped by encodeURIComponent. -/
def encUnreserved (c : Char) : Bool :=
  c.isAlpha || c.isDigit ||
    c = '-' || c = '_' || c = '.' || c = '!' || c = '~' || c = '*' ||
    c = Char.ofNat 39 || c = '(' || c = ')'

/-- Uppercase hexadecimal digit for a value below 16. -/
def hexDigit (n : Nat) : Char :=
  if n < 10 then Char.ofNat (48 + n) else Char.ofNat (55 + n)

/-- UTF-8 byte sequence of a character, used by encodeURIComponent. -/
def utf8Bytes (c : Char) : List Nat :=
  let n := c.toNat
  if n < 128 then [n]
  else if n < 2048 then [192 + n / 64, 128 + n % 64]
  else if n < 65536 then [224 + n / 4096, 128 + (n / 64) % 64, 128 + n % 64]
  else [240 + n / 262144, 128 + (n / 4096) % 64, 128 + (n / 64) % 64, 128 + n % 64]

/-- Percent-escape of one byte. -/
def pctByte (b : Nat) : List Char :=
  ['%', hexDigit (b / 16), hexDigit (b % 16)]

/-- Model of encodeURIComponent. -/
def encodeURIComponent (s : String) : String :=
  ⟨s.data.foldr
    (fun c acc =>
      (if encUnreserved c then [c] else (utf8Bytes c).foldr (fun b a => pctByte b ++ a) []) ++ acc)
    []⟩

/-- Result of a successful WHATWG URL parse, restricted to the fields the
source reads: protocol (with trailing colon), hostname, and href. -/
structure URLRec where
  protocol : String
  hostname : String
  href : String
deriving DecidableEq

/-- Characters allowed after the first character of a URL scheme. -/
def schemeChar (c : Char) : Bool :=
  c.isAlpha || c.isDigit || c = '+' || c = '-' || c = '.'

/-- Scans the remainder of a scheme up to the colon; returns the scheme
characters accumulated so far paired with the text after the colon. -/
def schemeGo (acc : List Char) : List Char → Option (List Char × List Char)
  | [] => none
  | c :: rest =>
    if c = ':' then some (acc, rest)
    else if schemeChar c then schemeGo (acc ++ [c]) rest
    else none

/-- Splits a candidate URL into scheme characters and the rest, failing
exactly when the input has no valid scheme followed by a colon. -/
def splitScheme : List Char → Option (List Char × List Char)
  | [] => none
  | c :: rest => if c.isAlpha then schemeGo [c] rest else none

/-- Text after the last at-sign of an authority (userinfo stripping). -/
def afterLastAt (l : List Char) : List Char :=
  (l.reverse.takeWhile (fun c => c ≠ '@')).reverse

/-- Model of the WHATWG URL constructor (new URL) to the extent the
source relies on it: it throws (Except.error) on inputs without a valid
scheme and on special-scheme inputs with an empty host; it lowercases
scheme and host; for http and https it strips leading slashes, userinfo
and port, and produces a normalized href with a default path of "/";
for every other scheme it records an empty hostname and keeps the text
after the colon verbatim in the href. -/
def parseURL (s : String) : Except String URLRec :=
  match splitScheme s.data with
  | none => .error "Invalid URL"
  | some (schemeCs, rest) =>
    let scheme : String := ⟨schemeCs.map Char.toLower⟩
    if scheme = "http" || scheme = "https" then
      let afterSlashes := rest.dropWhile (fun c => c = '/' || c = '\\')
      let authority := afterSlashes.takeWhile
        (fun c => !(c = '/' || c = '?' || c = '#' || c = '\\'))
      let afterAuth := afterSlashes.drop authority.length
      let hostport := afterLastAt authority
      let host := hostport.takeWhile (fun c => c ≠ ':')
      if host = [] then .error "Invalid URL"
      else
        let hostname : String := ⟨host.map Char.toLower⟩
        let path : String := if afterAuth = [] then "/" else ⟨afterAuth⟩
        .ok ⟨scheme ++ ":", hostname, scheme ++ "://" ++ hostname ++ path⟩
    else
      .ok ⟨scheme ++ ":", "", scheme ++ ":" ++ ⟨rest⟩⟩

/-! ## The phishing patterns of securityManager.js

Each entry of SUSPICIOUS_PATTERNS has the shape
  (literal head with small character classes) [^a-z]* \. [^X]
and is tested unanchored and case-insensitively against the hostname.
A head is a list of character classes (each a list of admissible
characters, on the lowercased hostname); the tail is the shared
suffix shape with its excluded character X. -/

/-- Matches the regex tail [^a-z]*\.[^excl] at the head of the list:
some run of non-letters, then a literal dot, then one character different
from excl. -/
def suffixMatch (excl : Char) : List Char → Bool
  | [] => false
  | c :: cs =>
    (c = '.' && (match cs with | d :: _ => d ≠ excl | [] => false))
      || (!(('a' ≤ c) && (c ≤ 'z')) && suffixMatch excl cs)

/-- Matches a literal head of character classes, returning the remaining
text on success. -/
def headMatch : List (List Char) → List Char → Option (List Char)
  | [], l => some l
  | _ :: _, [] => none
  | cls :: ps, c :: cs => if c ∈ cls then headMatch ps cs else none

/-- Whole pattern anchored at the current position. -/
def patHere (pat : List (List Char)) (excl : Char) (l : List Char) : Bool :=
  match headMatch pat l with
  | some rest => suffixMatch excl rest
  | none => false

/-- Unanchored scan, as RegExp.prototype.test does. -/
def patScan (pat : List (List Char)) (excl : Char) : List Char → Bool
  | [] => patHere pat excl []
  | c :: cs => patHere pat excl (c :: cs) || patScan pat excl cs

/-- Head of /paypa[l1][^a-z]*\.[^p]/i. -/
def paypalPat : List (List Char) :=
  [['p'], ['a'], ['y'], ['p'], ['a'], ['l', '1']]

/-- Head of /g[o0][o0]g[l1]e[^a-z]*\.[^c]/i. -/
def googlePat : List (List Char) :=
  [['g'], ['o', '0'], ['o', '0'], ['g'], ['l', '1'], ['e']]

/-- Head of /amaz[o0]n[^a-z]*\.[^c]/i. -/
def amazonPat : List (List Char) :=
  [['a'], ['m'], ['a'], ['z'], ['o', '0'], ['n']]

/-- Head of /faceb[o0][o0]k[^a-z]*\.[^c]/i. -/
def facebookPat : List (List Char) :=
  [['f'], ['a'], ['c'], ['e'], ['b'], ['o', '0'], ['o', '0'], ['k']]

/-- Head of /micr[o0]s[o0]ft[^a-z]*\.[^c]/i. -/
def microsoftPat : List (List Char) :=
  [['m'], ['i'], ['c'], ['r'], ['o', '0'], ['s'], ['o', '0'], ['f'], ['t']]

/-- The SUSPICIOUS_PATTERNS list: pattern head paired with the excluded
character of its tail. -/
def SUSPICIOUS_PATTERNS : List (List (List Char) × Char) :=
  [(paypalPat, 'p'), (googlePat, 'c'), (amazonPat, 'c'),
   (facebookPat, 'c'), (microsoftPat, 'c')]

/-- True when some suspicious pattern matches the hostname (the /i flag
is modelled by lowercasing the hostname first). -/
def suspiciousHost (h : String) : Bool :=
  SUSPICIOUS_PATTERNS.any (fun p => patScan p.1 p.2 (jsToLower h).data)

/-- BLOCKED_TLDS of securityManager.js. -/
def BLOCKED_TLDS : List String := [".onion"]

/-- Mutable configuration of a SecurityManager instance. -/
structure SecurityManagerState where
  blockedDomains : List String
  allowedDomains : List String
  enforceHttps : Bool
  blockMixedContent : Bool
  fingerprintProtection : Bool
deriving DecidableEq

/-- A freshly constructed SecurityManager. -/
def defaultSec : SecurityManagerState := ⟨[], [], true, true, true⟩

/-- Model of SecurityManager.isUrlSafe.  Its internal try/catch is the
match on parseURL: a parse failure yields false. -/
def isUrlSafe (sec : SecurityManagerState) (url : String) : Bool :=
  if url = "" then false
  else
    match parseURL url with
    | .error _ => false
    | .ok u =>
      if u.protocol = "ultrabrowse:" then true
      else if u.protocol = "devtools:" then true
      else if u.protocol = "data:" then jsStartsWith u.href "data:image/"
      else if !(u.protocol = "http:" || u.protocol = "https:") then false
      else if sec.blockedDomains.contains u.hostname then false
      else if BLOCKED_TLDS.any (fun t => jsEndsWith u.hostname t) then false
      else if suspiciousHost u.hostname then false
      else if sec.allowedDomains.contains u.hostname then true
      else true

/-- Sanitized URL verdict: isValid, sanitizedUrl, reason (null is none). -/
structure Verdict where
  isValid : Bool
  sanitizedUrl : Option String
  reason : Option String
deriving DecidableEq

/-- The dangerous-scheme denylist of sanitizeUrl. -/
def dangerousSchemes : List String := ["javascript:", "vbscript:", "data:"]

/-- The dangerous-scheme loop of sanitizeUrl: first scheme the lowercased
input starts with wins, except that an image data URI is skipped. -/
def schemeLoop (lowerUrl : String) : List String → Option String
  | [] => none
  | sch :: rest =>
    if jsStartsWith lowerUrl sch then
      if sch = "data:" && jsStartsWith lowerUrl "data:image/" then schemeLoop lowerUrl rest
      else some (sch.dropRight 1 ++ " URLs are blocked for security")
    else schemeLoop lowerUrl rest

/-- Model of SecurityManager.sanitizeUrl.  The result type Except makes
thrown exceptions expressible; both try/catch sites of the source are the
matches on parseURL, so every path below ends in Except.ok. -/
def sanitizeUrl (sec : SecurityManagerState) (url : String) : Except String Verdict :=
  if url = "" then .ok ⟨false, none, some "Invalid input"⟩
  else
    let trimmedUrl := jsTrim url
    let lowerUrl := jsToLower trimmedUrl
    match schemeLoop lowerUrl dangerousSchemes with
    | some reason => .ok ⟨false, none, some reason⟩
    | none =>
      match parseURL trimmedUrl with
      | .ok parsedUrl =>
        if isUrlSafe sec trimmedUrl then .ok ⟨true, some parsedUrl.href, none⟩
        else .ok ⟨false, none, some "URL blocked for security reasons"⟩
      | .error _ =>
        if jsIncludes trimmedUrl '.' && !(jsIncludes trimmedUrl ' ') then
          match parseURL ("https://" ++ trimmedUrl) with
          | .ok parsedUrl =>
            if isUrlSafe sec ("https://" ++ trimmedUrl) then .ok ⟨true, some parsedUrl.href, none⟩
            else .ok ⟨true, some ("https://duckduckgo.com/?q=" ++ encodeURIComponent trimmedUrl),
                      some "Converted to search query"⟩
          | .error _ =>
            .ok ⟨true, some ("https://duckduckgo.com/?q=" ++ encodeURIComponent trimmedUrl),
                 some "Converted to search query"⟩
        else
          .ok ⟨true, some ("https://duckduckgo.com/?q=" ++ encodeURIComponent trimmedUrl),
               some "Converted to search query"⟩

/-! ## Association-list model of JavaScript Map and Set

JavaScript Map keeps keys unique and iterates in insertion order;
Map.prototype.set updates an existing key in place and otherwise appends.
Set.prototype.add appends when absent.  Map.prototype.delete removes the
entry of the key. -/

/-- Map.prototype.get. -/
def alistLookup {β : Type} : List (String × β) → String → Option β
  | [], _ => none
  | (k, v) :: t, key => if k = key then some v else alistLookup t key

/-- Map.prototype.set: update in place or append. -/
def alistInsert {β : Type} : List (String × β) → String → β → List (String × β)
  | [], key, v => [(key, v)]
  | (k, w) :: t, key, v =>
    if k = key then (key, v) :: t else (k, w) :: alistInsert t key v

/-- Map.prototype.delete: drop the entries of the key. -/
def alistErase {β : Type} (l : List (String × β)) (key : String) : List (String × β) :=
  l.filter (fun p => !(p.1 = key))

/-- Set.prototype.add: append when absent. -/
def setAdd (l : List String) (x : String) : List String :=
  if x ∈ l then l else l ++ [x]

/-! ## Session manager (sessionManager.js)

Electron hands out one session object per partition string, so a session
instance is identified here by its partition, and the data behind every
partition lives in an Electron-level registry carried in the state. -/

/-- Data behind one Electron storage partition. -/
structure SessData where
  cacheEnabled : Bool
  storage : List String
  cache : List String
deriving DecidableEq

/-- State of the SessionManager together with the Electron-level
partition registry and the ProfileManager's own session map (profile id
to partition) that SessionManager consults. -/
structure SMState where
  partitions : List (String × SessData)
  activeSessions : List (String × String)
  incognitoSessions : List String
  pmSessions : List (String × String)
deriving DecidableEq

/-- A state with nothing registered. -/
def emptySM : SMState := ⟨[], [], [], []⟩

/-- Model of Electron session.fromPartition: returns the existing
partition or registers a fresh one (cache-disabled when requested). -/
def fromPartition (p : String) (cacheEnabled : Bool)
    (parts : List (String × SessData)) : List (String × SessData) :=
  match alistLookup parts p with
  | some _ => parts
  | none => parts ++ [(p, ⟨cacheEnabled, [], []⟩)]

/-- Model of clearStorageData followed by clearCache on the session of
partition p. -/
def clearData (p : String) (parts : List (String × SessData)) :
    List (String × SessData) :=
  parts.map (fun e => if e.1 = p then (e.1, ⟨e.2.cacheEnabled, [], []⟩) else e)

/-- The incognito session id template of createIncognitoSession, with the
Date.now() string and the random base-36 string as parameters. -/
def mkIncognitoId (t r : String) : String :=
  "incognito-" ++ t ++ "-" ++ r

namespace SessionManager

/-- Model of SessionManager.getSessionForProfile: return the cached
session, else the ProfileManager's, else a fresh persist partition; in
every case record it in activeSessions.  The returned string is the
partition identifying the session instance. -/
def getSessionForProfile (profileId : String) (st : SMState) : SMState × String :=
  match alistLookup st.activeSessions profileId with
  | some s => (st, s)
  | none =>
    match alistLookup st.pmSessions profileId with
    | some s =>
      ({ st with activeSessions := alistInsert st.activeSessions profileId s }, s)
    | none =>
      let partition := "persist:profile-" ++ profileId
      ({ st with
          partitions := fromPartition partition true st.partitions,
          activeSessions := alistInsert st.activeSessions profileId partition },
       partition)

/-- Model of SessionManager.createIncognitoSession, the generated raw id
material (timestamp string, random string) passed in as parameters. -/
def createIncognitoSession (t r : String) (st : SMState) : SMState × String :=
  let sessionId := mkIncognitoId t r
  ({ st with
      partitions := fromPartition sessionId false st.partitions,
      incognitoSessions := setAdd st.incognitoSessions sessionId,
      activeSessions := alistInsert st.activeSessions sessionId sessionId },
   sessionId)

/-- Model of SessionManager.destroyIncognitoSession: for a registered
incognito id, wipe the storage and cache of its session and drop it from
both registries; unknown ids are ignored. -/
def destroyIncognitoSession (sessionId : String) (st : SMState) : SMState :=
  if sessionId ∈ st.incognitoSessions then
    let st1 :=
      match alistLookup st.activeSessions sessionId with
      | some p => { st with partitions := clearData p st.partitions }
      | none => st
    { st1 with
        activeSessions := alistErase st1.activeSessions sessionId,
        incognitoSessions := st1.incognitoSessions.erase sessionId }
  else st

end SessionManager

/-! ## Tab manager (tabManager.js) -/

/-- One tab record; fields and defaults follow DEFAULT_TAB_CONFIG plus
the fields createTab fills in, and the error field set by did-fail-load. -/
structure Tab where
  id : String
  url : String
  title : String
  isActive : Bool
  isLoading : Bool
  canGoBack : Bool
  canGoForward : Bool
  favicon : Option String
  isIncognito : Bool
  profileId : String
  sessionId : String
  createdAt : String
  error : Option (Int × String)
deriving DecidableEq

/-- DEFAULT_TAB_CONFIG of tabManager.js. -/
def DEFAULT_TAB_CONFIG : Tab :=
  { id := "", url := "horizon://newtab", title := "New Tab",
    isActive := false, isLoading := false, canGoBack := false,
    canGoForward := false, favicon := none, isIncognito := false,
    profileId := "", sessionId := "", createdAt := "", error := none }

/-- State of the TabManager together with its SessionManager.  BrowserView
render surfaces are opaque, so views keeps only tab ids in insertion
order; notifications is the ordered log of (event, tab id) pairs handed
to notifyListeners. -/
structure TMState where
  sm : SMState
  tabs : List (String × Tab)
  views : List String
  activeTabId : Option String
  hasParentWindow : Bool
  notifications : List (String × String)
deriving DecidableEq

namespace TabManager

/-- Appends one notifyListeners publication to the log. -/
def notifyLog (st : TMState) (event tabId : String) : TMState :=
  { st with notifications := st.notifications ++ [(event, tabId)] }

/-- The deactivation block at the top of TabManager.activateTab: when a
different tab is currently active and still registered, its record is
marked inactive (and its view would be detached from the window). -/
def deactivateCurrent (tabId : String) (st : TMState) : TMState :=
  match st.activeTabId with
  | some cur =>
    if cur = tabId then st
    else
      match alistLookup st.tabs cur with
      | some ct => { st with tabs := alistInsert st.tabs cur { ct with isActive := false } }
      | none => st
  | none => st

/-- Model of TabManager.activateTab: fails on an unknown tab or a missing
parent window; otherwise deactivates the previously active tab (when it
is a different, still-registered tab), marks the requested tab active,
records it as the active selection, and publishes tab-activated. -/
def activateTab (tabId : String) (st : TMState) : TMState × Bool :=
  if alistLookup st.tabs tabId = none || !st.hasParentWindow then (st, false)
  else
    let st1 := deactivateCurrent tabId st
    match alistLookup st1.tabs tabId with
    | some tab =>
      let st2 := { st1 with
        tabs := alistInsert st1.tabs tabId { tab with isActive := true },
        activeTabId := some tabId }
      (notifyLog st2 "tab-activated" tabId, true)
    | none => (st1, true)

/-- Model of TabManager.createTab.  The fresh uuid, the raw material of a
possible incognito session id, and the creation timestamp are parameters
(the source draws them from uuidv4, Date.now and Math.random).  BrowserView
construction and loadURL are render-host effects outside the model.  The
returned tab is read back from the registry because the source returns the
object that activateTab may already have marked active. -/
def createTab (tabId : String) (tok : String × String) (now : String)
    (url profileId : String) (isIncognito activate : Bool)
    (st : TMState) : TMState × Tab :=
  let acquired :=
    if isIncognito then SessionManager.createIncognitoSession tok.1 tok.2 st.sm
    else
      let r := SessionManager.getSessionForProfile profileId st.sm
      (r.1, profileId)
  let tab := { DEFAULT_TAB_CONFIG with
    id := tabId, url := url, profileId := profileId,
    sessionId := acquired.2, isIncognito := isIncognito, createdAt := now }
  let st1 := { st with
    sm := acquired.1,
    tabs := alistInsert st.tabs tabId tab,
    views := st.views ++ [tabId] }
  let st2 := if activate then (activateTab tabId st1).1 else st1
  let finalTab := (alistLookup st2.tabs tabId).getD tab
  (notifyLog st2 "tab-created" tabId, finalTab)

/-- Model of TabManager.closeTab.  Returns false for an unknown tab.
Otherwise destroys the incognito session when applicable, removes the tab
and its view, and, when the closed tab was the active selection, activates
the last remaining tab in insertion order or, with none left, clears the
selection and itself creates a fresh default tab (freshId and now stand
for the uuid and timestamp that creation draws).  Publishes tab-closed and
returns true. -/
def closeTab (freshId now tabId : String) (st : TMState) : TMState × Bool :=
  match alistLookup st.tabs tabId with
  | none => (st, false)
  | some tab =>
    let sm1 :=
      if tab.isIncognito && !(tab.sessionId = "") then
        SessionManager.destroyIncognitoSession tab.sessionId st.sm
      else st.sm
    let st1 := { st with
      sm := sm1,
      tabs := alistErase st.tabs tabId,
      views := st.views.erase tabId }
    let st2 :=
      if st.activeTabId = some tabId then
        match (st1.tabs.map Prod.fst).getLast? with
        | some lastId => (activateTab lastId st1).1
        | none =>
          let st' := { st1 with activeTabId := none }
          (createTab freshId ("", "") now "horizon://newtab" "default" false true st').1
      else st1
    (notifyLog st2 "tab-closed" tabId, true)

/-- Partial update handed to updateTab: present fields overwrite the tab
record, mirroring the object spread of the source. -/
structure TabUpdates where
  url : Option String
  title : Option String
  isLoading : Option Bool
  canGoBack : Option Bool
  canGoForward : Option Bool
  favicon : Option (Option String)
  error : Option (Option (Int × String))
deriving DecidableEq

/-- An update carrying no fields. -/
def noUpdates : TabUpdates := ⟨none, none, none, none, none, none, none⟩

/-- The object spread of updateTab. -/
def applyUpdates (tab : Tab) (u : TabUpdates) : Tab :=
  { tab with
    url := u.url.getD tab.url,
    title := u.title.getD tab.title,
    isLoading := u.isLoading.getD tab.isLoading,
    canGoBack := u.canGoBack.getD tab.canGoBack,
    canGoForward := u.canGoForward.getD tab.canGoForward,
    favicon := u.favicon.getD tab.favicon,
    error := u.error.getD tab.error }

/-- Model of TabManager.updateTab: an unknown tab id yields null and
leaves the state (including the notification log) untouched; otherwise
the merged record is stored and tab-updated published. -/
def updateTab (tabId : String) (u : TabUpdates) (st : TMState) : TMState × Option Tab :=
  match alistLookup st.tabs tabId with
  | none => (st, none)
  | some tab =>
    let t2 := applyUpdates tab u
    (notifyLog { st with tabs := alistInsert st.tabs tabId t2 } "tab-updated" tabId, some t2)

/-- One subscribed listener: given the event name and the tab data it
either finishes with its observable effects or throws. -/
def Listener : Type := String → Tab → Except String (List String)

/-- Model of TabManager.notifyListeners: every listener is called in
registration order inside a try/catch that discards a thrown error, so
the collected effects of the others survive and nothing propagates. -/
def notifyListeners (listeners : List Listener) (event : String) (data : Tab) :
    List String :=
  match listeners with
  | [] => []
  | f :: rest =>
    (match f event data with
     | .ok out => out
     | .error _ => []) ++ notifyListeners rest event data

end TabManager

/-! ## Concrete demonstration states used by witnesses and counterexamples -/
def demoTab (i : String) (act : Bool) : Tab :=
  { DEFAULT_TAB_CONFIG with id := i, isActive := act }

def demoSt3 : TMState :=
  { sm := emptySM,
    tabs := [("A", demoTab "A" true), ("B", demoTab "B" false), ("C", demoTab "C" false)],
    views := ["A", "B", "C"], activeTabId := some "A",
    hasParentWindow := true, notifications := [] }

def demoSt1 : TMState :=
  { sm := emptySM, tabs := [("A", demoTab "A" true)], views := ["A"],
    activeTabId := some "A", hasParentWindow := true, notifications := [] }

/-- A well-behaved demonstration listener: it records the event name. -/
def okListener : TabManager.Listener := fun e _ => .ok [e]

/-- A demonstration listener that always throws. -/
def throwListener : TabManager.Listener := fun _ _ => .error "listener failure"

/-! ## Helper lemmas -/

theorem alistLookup_insert_self {β : Type} (l : List (String × β)) (k : String) (v : β) :
    alistLookup (alistInsert l k v) k = some v := by
  induction l with
  | nil => simp [alistInsert, alistLookup]
  | cons hd t ih =>
    obtain ⟨a, b⟩ := hd
    simp only [alistInsert]
    by_cases hk : a = k
    · rw [if_pos hk]
      simp [alistLookup]
    · rw [if_neg hk]
      simp only [alistLookup]
      rw [if_neg hk]
      exact ih

theorem alistLookup_insert_ne {β : Type} (l : List (String × β)) (k : String) (v : β)
    (k' : String) (h : k' ≠ k) :
    alistLookup (alistInsert l k v) k' = alistLookup l k' := by
  induction l with
  | nil =>
    simp only [alistInsert, alistLookup]
    rw [if_neg (Ne.symm h)]
  | cons hd t ih =>
    obtain ⟨a, b⟩ := hd
    simp only [alistInsert]
    by_cases hk : a = k
    · rw [if_pos hk]
      have hak : ¬ a = k' := fun hh => h (hh ▸ hk)
      simp only [alistLookup]
      rw [if_neg (Ne.symm h), if_neg hak]
    · rw [if_neg hk]
      simp only [alistLookup]
      by_cases hak : a = k'
      · rw [if_pos hak, if_pos hak]
      · rw [if_neg hak, if_neg hak]
        exact ih

theorem alistLookup_erase_self {β : Type} (l : List (String × β)) (k : String) :
    alistLookup (alistErase l k) k = none := by
  induction l with
  | nil => simp [alistErase, alistLookup]
  | cons hd t ih =>
    obtain ⟨a, b⟩ := hd
    simp only [alistErase, List.filter_cons] at *
    by_cases hk : a = k
    · have hc : (!decide ((a, b).1 = k)) = false := by simp [hk]
      rw [hc, if_neg (by simp : ¬ (false = true))]
      exact ih
    · have hc : (!decide ((a, b).1 = k)) = true := by simp [hk]
      rw [hc, if_pos rfl]
      simp only [alistLookup]
      rw [if_neg hk]
      exact ih

theorem alistLookup_erase_ne {β : Type} (l : List (String × β)) (k k' : String)
    (h : k' ≠ k) :
    alistLookup (alistErase l k) k' = alistLookup l k' := by
  induction l with
  | nil => simp [alistErase, alistLookup]
  | cons hd t ih =>
    obtain ⟨a, b⟩ := hd
    simp only [alistErase, List.filter_cons] at *
    by_cases hk : a = k
    · have hc : (!decide ((a, b).1 = k)) = false := by simp [hk]
      rw [hc, if_neg (by simp : ¬ (false = true))]
      have hak : ¬ a = k' := fun hh => h (hh ▸ hk)
      rw [ih]
      simp only [alistLookup]
      rw [if_neg hak]
    · have hc : (!decide ((a, b).1 = k)) = true := by simp [hk]
      rw [hc, if_pos rfl]
      simp only [alistLookup]
      by_cases hak : a = k'
      · rw [if_pos hak, if_pos hak]
      · rw [if_neg hak, if_neg hak]
        exact ih

theorem alistLookup_append_some {β : Type} (l l' : List (String × β)) (k : String) (v : β)
    (h : alistLookup l k = some v) :
    alistLookup (l ++ l') k = some v := by
  induction l with
  | nil => simp [alistLookup] at h
  | cons hd t ih =>
    obtain ⟨a, b⟩ := hd
    simp only [alistLookup, List.cons_append] at *
    by_cases hk : a = k
    · rw [if_pos hk] at h ⊢
      exact h
    · rw [if_neg hk] at h ⊢
      exact ih h

theorem alistLookup_mem_keys {β : Type} {l : List (String × β)} {k : String}
    (h : k ∈ l.map Prod.fst) : ∃ v, alistLookup l k = some v := by
  induction l with
  | nil => simp at h
  | cons hd t ih =>
    obtain ⟨a, b⟩ := hd
    by_cases hk : a = k
    · exact ⟨b, by simp only [alistLookup]; rw [if_pos hk]⟩
    · simp only [List.map_cons, List.mem_cons] at h
      rcases h with h | h
      · exact absurd h.symm hk
      · obtain ⟨v, hv⟩ := ih h
        exact ⟨v, by simp only [alistLookup]; rw [if_neg hk]; exact hv⟩

theorem alistErase_keys_ne {β : Type} {l : List (String × β)} {k k' : String}
    (h : k' ∈ (alistErase l k).map Prod.fst) : k' ≠ k := by
  induction l with
  | nil => simp [alistErase] at h
  | cons hd t ih =>
    obtain ⟨a, b⟩ := hd
    simp only [alistErase, List.filter_cons] at h
    by_cases hk : a = k
    · have hc : (!decide ((a, b).1 = k)) = false := by simp [hk]
      rw [hc, if_neg (by simp : ¬ (false = true))] at h
      exact ih h
    · have hc : (!decide ((a, b).1 = k)) = true := by simp [hk]
      rw [hc, if_pos rfl] at h
      simp only [List.map_cons, List.mem_cons] at h
      rcases h with h | h
      · exact fun hh => hk (h.symm.trans hh)
      · exact ih h

theorem mem_setAdd_self (l : List String) (x : String) : x ∈ setAdd l x := by
  unfold setAdd; split <;> simp_all

theorem mem_setAdd_of_mem (l : List String) (x y : String) (h : y ∈ l) :
    y ∈ setAdd l x := by
  unfold setAdd; split <;> simp_all

theorem alistLookup_clearData_ne (parts : List (String × SessData)) (p q : String)
    (h : q ≠ p) :
    alistLookup (clearData p parts) q = alistLookup parts q := by
  induction parts with
  | nil => simp [clearData, alistLookup]
  | cons hd t ih =>
    obtain ⟨a, b⟩ := hd
    simp only [clearData, List.map_cons] at *
    by_cases hp : a = p
    · rw [if_pos (by simpa using hp)]
      simp only [alistLookup]
      have haq : ¬ a = q := fun hh => h (hh ▸ hp)
      rw [if_neg haq, if_neg haq]
      exact ih
    · rw [if_neg (by simpa using hp)]
      simp only [alistLookup]
      by_cases haq : a = q
      · rw [if_pos haq, if_pos haq]
      · rw [if_neg haq, if_neg haq]
        exact ih

theorem alistLookup_clearData_self (parts : List (String × SessData)) (p : String) :
    alistLookup (clearData p parts) p
      = (alistLookup parts p).map (fun d => ⟨d.cacheEnabled, [], []⟩) := by
  induction parts with
  | nil => simp [clearData, alistLookup]
  | cons hd t ih =>
    obtain ⟨a, b⟩ := hd
    simp only [clearData, List.map_cons] at *
    by_cases hp : a = p
    · rw [if_pos (by simpa using hp)]
      simp only [alistLookup]
      rw [if_pos hp, if_pos hp]
      rfl
    · rw [if_neg (by simpa using hp)]
      simp only [alistLookup]
      rw [if_neg hp, if_neg hp]
      exact ih

theorem isPrefixOf_false_of_head_ne {a b : Char} (hab : a ≠ b) (as bs l : List Char)
    (h : (a :: as).isPrefixOf l = true) : (b :: bs).isPrefixOf l = false := by
  cases l with
  | nil => exact absurd h (by simp [List.isPrefixOf])
  | cons c cs =>
    rw [List.isPrefixOf_iff_prefix, List.cons_prefix_cons] at h
    by_contra hb
    simp only [Bool.not_eq_false] at hb
    rw [List.isPrefixOf_iff_prefix, List.cons_prefix_cons] at hb
    exact hab (h.1.trans hb.1.symm)

/-- C1: the specification says the lookalike patterns reject phishing
hostnames while the exact canonical brand domains are accepted, and the
code comments agree, but the paypal pattern /paypa[l1][^a-z]*\.[^p]/i in
fact matches the canonical hostname paypal.com (the character after the
dot is c, which the class excluding only p accepts), so sanitizeUrl
rejects the canonical domain.  The other four brand domains behave as
documented, and a genuine lookalike such as paypa1.net is rejected. -/
theorem c1_canonical_paypal_rejected :
    sanitizeUrl defaultSec "https://paypal.com"
        = .ok ⟨false, none, some "URL blocked for security reasons"⟩
    ∧ suspiciousHost "paypal.com" = true
    ∧ sanitizeUrl defaultSec "https://paypa1.net"
        = .ok ⟨false, none, some "URL blocked for security reasons"⟩
    ∧ sanitizeUrl defaultSec "https://google.com"
        = .ok ⟨true, some "https://google.com/", none⟩
    ∧ sanitizeUrl defaultSec "https://amazon.com"
        = .ok ⟨true, some "https://amazon.com/", none⟩
    ∧ sanitizeUrl defaultSec "https://facebook.com"
        = .ok ⟨true, some "https://facebook.com/", none⟩
    ∧ sanitizeUrl defaultSec "https://microsoft.com"
        = .ok ⟨true, some "https://microsoft.com/", none⟩ :=
  ⟨rfl, rfl, rfl, rfl, rfl, rfl, rfl⟩

/-- C2: an input whose trimmed, lowercased form begins with javascript:
or vbscript: is always rejected with a reason naming the scheme; the
rejection happens in the dangerous-scheme loop, before any parsing,
domain heuristic or search-query fallback can run. -/
theorem c2_dangerous_scheme_rejected (sec : SecurityManagerState) (s : String) :
    (jsStartsWith (jsToLower (jsTrim s)) "javascript:" = true →
      sanitizeUrl sec s = .ok ⟨false, none, some "javascript URLs are blocked for security"⟩)
    ∧ (jsStartsWith (jsToLower (jsTrim s)) "vbscript:" = true →
      sanitizeUrl sec s = .ok ⟨false, none, some "vbscript URLs are blocked for security"⟩) := by
  constructor
  · intro h
    have hne : s ≠ "" := by
      intro he
      rw [he] at h
      exact absurd h (by decide)
    unfold sanitizeUrl
    rw [if_neg hne]
    simp only [dangerousSchemes, schemeLoop, h]
    rfl
  · intro h
    have hne : s ≠ "" := by
      intro he
      rw [he] at h
      exact absurd h (by decide)
    have hjs : jsStartsWith (jsToLower (jsTrim s)) "javascript:" = false := by
      have h2 : ('v' :: "bscript:".data).isPrefixOf (jsToLower (jsTrim s)).data = true := h
      show ('j' :: "avascript:".data).isPrefixOf (jsToLower (jsTrim s)).data = false
      exact isPrefixOf_false_of_head_ne (by decide) _ _ _ h2
    unfold sanitizeUrl
    rw [if_neg hne]
    simp only [dangerousSchemes, schemeLoop, h, hjs]
    rfl

/-- Witness for C2 at concrete dangerous inputs of both schemes, with
case changes and surrounding whitespace. -/
theorem c2_dangerous_scheme_rejected_w :
    sanitizeUrl defaultSec "  JavaScript:alert(1)"
        = .ok ⟨false, none, some "javascript URLs are blocked for security"⟩
    ∧ sanitizeUrl defaultSec " VBScript:MsgBox(1) "
        = .ok ⟨false, none, some "vbscript URLs are blocked for security"⟩ :=
  ⟨(c2_dangerous_scheme_rejected defaultSec "  JavaScript:alert(1)").1 (by decide),
   (c2_dangerous_scheme_rejected defaultSec " VBScript:MsgBox(1) ").2 (by decide)⟩

/-- C6: sanitizeUrl never throws: although its result type makes a thrown
exception expressible and the URL parser it calls does throw on malformed
input, every execution path ends with a single ok verdict. -/
theorem c6_sanitizeUrl_never_throws (sec : SecurityManagerState) (url : String) :
    ∃ v : Verdict, sanitizeUrl sec url = Except.ok v := by
  unfold sanitizeUrl
  dsimp only
  repeat' split
  all_goals exact ⟨_, rfl⟩

/-- C7 as amended: the code rejects only the genuinely empty string, with
reason Invalid input rather than a reason named empty, while a nonempty
whitespace-only input trims to nothing, fails to parse, and is accepted
as a search-query conversion with an empty query. -/
theorem c7_empty_and_whitespace (sec : SecurityManagerState) :
    sanitizeUrl sec "" = .ok ⟨false, none, some "Invalid input"⟩
    ∧ ∀ s : String, s ≠ "" → (∀ c ∈ s.data, jsIsSpace c = true) →
        sanitizeUrl sec s
          = .ok ⟨true, some "https://duckduckgo.com/?q=", some "Converted to search query"⟩ := by
  constructor
  · rfl
  · intro s hne hsp
    have h1 : s.data.dropWhile jsIsSpace = [] := List.dropWhile_eq_nil_iff.2 hsp
    have htrim : jsTrim s = "" := by
      unfold jsTrim
      rw [h1]
      rfl
    unfold sanitizeUrl
    rw [if_neg hne]
    simp only [htrim]
    rfl

/-- Witness for C7 at a concrete whitespace-only input. -/
theorem c7_empty_and_whitespace_w :
    sanitizeUrl defaultSec " \t "
      = .ok ⟨true, some "https://duckduckgo.com/?q=", some "Converted to search query"⟩ :=
  (c7_empty_and_whitespace defaultSec).2 " \t " (by decide) (by decide)

/-- Counterexample to C7 as stated: a whitespace-only input is not
rejected at all; it is accepted as a converted search query, and the
reason of the empty-input rejection is Invalid input, not empty. -/
theorem c7_counterexample :
    (sanitizeUrl defaultSec " ").isOk = true
    ∧ sanitizeUrl defaultSec " "
        = .ok ⟨true, some "https://duckduckgo.com/?q=", some "Converted to search query"⟩
    ∧ sanitizeUrl defaultSec "" = .ok ⟨false, none, some "Invalid input"⟩ :=
  ⟨rfl, rfl, rfl⟩

theorem alistLookup_append_of_none {β : Type} (l l' : List (String × β)) (k : String)
    (h : alistLookup l k = none) :
    alistLookup (l ++ l') k = alistLookup l' k := by
  induction l with
  | nil => simp
  | cons hd t ih =>
    obtain ⟨a, b⟩ := hd
    simp only [alistLookup, List.cons_append] at *
    by_cases hk : a = k
    · rw [if_pos hk] at h
      exact absurd h (by simp)
    · rw [if_neg hk] at h ⊢
      exact ih h

theorem sep_inj (a1 : List Char) : ∀ {b1 a2 b2 : List Char}, '-' ∉ a1 → '-' ∉ a2 →
    a1 ++ '-' :: b1 = a2 ++ '-' :: b2 → a1 = a2 ∧ b1 = b2 := by
  induction a1 with
  | nil =>
    intro b1 a2 b2 h1 h2 heq
    cases a2 with
    | nil => simpa using heq
    | cons c u =>
      simp only [List.nil_append, List.cons_append, List.cons.injEq] at heq
      exact absurd (by rw [← heq.1] at *; exact List.mem_cons_self _ _) h2
  | cons c t ih =>
    intro b1 a2 b2 h1 h2 heq
    cases a2 with
    | nil =>
      simp only [List.cons_append, List.nil_append, List.cons.injEq] at heq
      exact absurd (by rw [heq.1]; exact List.mem_cons_self _ _) h1
    | cons d u =>
      simp only [List.cons_append, List.cons.injEq] at heq
      obtain ⟨hcd, htl⟩ := heq
      have h1' : '-' ∉ t := fun hm => h1 (List.mem_cons_of_mem _ hm)
      have h2' : '-' ∉ u := fun hm => h2 (List.mem_cons_of_mem _ hm)
      obtain ⟨he, hb⟩ := ih h1' h2' htl
      exact ⟨by rw [hcd, he], hb⟩

theorem mkIncognitoId_data (t r : String) :
    (mkIncognitoId t r).data = "incognito-".data ++ (t.data ++ '-' :: r.data) := by
  unfold mkIncognitoId
  simp [String.data_append, List.append_assoc]

theorem mkIncognitoId_inj {t1 r1 t2 r2 : String}
    (h1 : '-' ∉ t1.data) (h2 : '-' ∉ t2.data)
    (heq : mkIncognitoId t1 r1 = mkIncognitoId t2 r2) : t1 = t2 ∧ r1 = r2 := by
  have hd : (mkIncognitoId t1 r1).data = (mkIncognitoId t2 r2).data := by rw [heq]
  rw [mkIncognitoId_data, mkIncognitoId_data] at hd
  obtain ⟨ha, hb⟩ := sep_inj t1.data h1 h2 (List.append_cancel_left hd)
  exact ⟨String.ext ha, String.ext hb⟩

/-- C8: getSessionForProfile is idempotent: a second acquisition for the
same profile id returns exactly the result of the first one, the same
session instance in the same state, so two non-incognito tabs with one
profile id share a single context and no duplicate context is created. -/
theorem c8_getSessionForProfile_idempotent (st : SMState) (profileId : String) :
    SessionManager.getSessionForProfile profileId
        (SessionManager.getSessionForProfile profileId st).1
      = SessionManager.getSessionForProfile profileId st := by
  unfold SessionManager.getSessionForProfile
  cases hl : alistLookup st.activeSessions profileId with
  | some s => simp [hl]
  | none =>
    cases hp : alistLookup st.pmSessions profileId with
    | some s => simp [hl, hp, alistLookup_insert_self]
    | none => simp [hl, hp, alistLookup_insert_self]

theorem fromPartition_lookup_some (p : String) (c : Bool)
    (parts : List (String × SessData)) (k : String) (v : SessData)
    (h : alistLookup parts k = some v) :
    alistLookup (fromPartition p c parts) k = some v := by
  unfold fromPartition
  cases hl : alistLookup parts p with
  | some s => exact h
  | none => exact alistLookup_append_some _ _ _ _ h

/-- C3: creating two incognito sessions from distinct raw id material
(dash-free timestamps) yields distinct, never-reused context ids, and
destroying the first wipes exactly its own partition and unregisters
exactly it: every other partition is untouched and the second session
stays registered in both registries. -/
theorem c3_private_context_isolation (st0 : SMState) (t1 r1 t2 r2 : String)
    (hd1 : '-' ∉ t1.data) (hd2 : '-' ∉ t2.data)
    (hne : t1 ≠ t2 ∨ r1 ≠ r2)
    (hfresh : alistLookup st0.partitions (mkIncognitoId t1 r1) = none)
    (hinc1 : mkIncognitoId t1 r1 ∉ st0.incognitoSessions) :
    (SessionManager.createIncognitoSession t1 r1 st0).2
        ≠ (SessionManager.createIncognitoSession t2 r2
            (SessionManager.createIncognitoSession t1 r1 st0).1).2
    ∧ (let c1 := SessionManager.createIncognitoSession t1 r1 st0
       let c2 := SessionManager.createIncognitoSession t2 r2 c1.1
       let st3 := SessionManager.destroyIncognitoSession c1.2 c2.1
       alistLookup st3.partitions c1.2 = some ⟨false, [], []⟩
       ∧ (∀ p, p ≠ c1.2 → alistLookup st3.partitions p = alistLookup c2.1.partitions p)
       ∧ st3.activeSessions = alistErase c2.1.activeSessions c1.2
       ∧ alistLookup st3.activeSessions c1.2 = none
       ∧ c1.2 ∉ st3.incognitoSessions
       ∧ alistLookup st3.activeSessions c2.2 = some c2.2
       ∧ c2.2 ∈ st3.incognitoSessions) := by
  have hid : mkIncognitoId t1 r1 ≠ mkIncognitoId t2 r2 := by
    intro he
    obtain ⟨ht, hr⟩ := mkIncognitoId_inj hd1 hd2 he
    rcases hne with hne | hne
    · exact hne ht
    · exact hne hr
  set id1 := mkIncognitoId t1 r1 with hid1
  set id2 := mkIncognitoId t2 r2 with hid2
  have hP1 : fromPartition id1 false st0.partitions
      = st0.partitions ++ [(id1, ⟨false, [], []⟩)] := by
    unfold fromPartition
    rw [hfresh]
  have e1 : SessionManager.createIncognitoSession t1 r1 st0
      = ({ st0 with
            partitions := st0.partitions ++ [(id1, ⟨false, [], []⟩)],
            incognitoSessions := st0.incognitoSessions ++ [id1],
            activeSessions := alistInsert st0.activeSessions id1 id1 }, id1) := by
    simp only [SessionManager.createIncognitoSession, ← hid1]
    rw [hP1]
    unfold setAdd
    rw [if_neg hinc1]
  have e2 : SessionManager.createIncognitoSession t2 r2
      { st0 with
          partitions := st0.partitions ++ [(id1, ⟨false, [], []⟩)],
          incognitoSessions := st0.incognitoSessions ++ [id1],
          activeSessions := alistInsert st0.activeSessions id1 id1 }
      = ({ st0 with
            partitions := fromPartition id2 false (st0.partitions ++ [(id1, ⟨false, [], []⟩)]),
            incognitoSessions := setAdd (st0.incognitoSessions ++ [id1]) id2,
            activeSessions := alistInsert (alistInsert st0.activeSessions id1 id1) id2 id2 },
         id2) := rfl
  have hlook1 : alistLookup (st0.partitions ++ [(id1, ⟨false, [], []⟩)]) id1
      = some ⟨false, [], []⟩ := by
    rw [alistLookup_append_of_none _ _ _ hfresh]
    simp [alistLookup]
  have hlookP2 : alistLookup
      (fromPartition id2 false (st0.partitions ++ [(id1, ⟨false, [], []⟩)])) id1
      = some ⟨false, [], []⟩ :=
    fromPartition_lookup_some _ _ _ _ _ hlook1
  have hact12 : alistLookup
      (alistInsert (alistInsert st0.activeSessions id1 id1) id2 id2) id1
      = some id1 := by
    rw [alistLookup_insert_ne _ _ _ _ hid, alistLookup_insert_self]
  have hmemI2 : id1 ∈ setAdd (st0.incognitoSessions ++ [id1]) id2 :=
    mem_setAdd_of_mem _ _ _ (by simp)
  have e3 : SessionManager.destroyIncognitoSession id1
      { st0 with
          partitions := fromPartition id2 false (st0.partitions ++ [(id1, ⟨false, [], []⟩)]),
          incognitoSessions := setAdd (st0.incognitoSessions ++ [id1]) id2,
          activeSessions := alistInsert (alistInsert st0.activeSessions id1 id1) id2 id2 }
      = { st0 with
            partitions := clearData id1
              (fromPartition id2 false (st0.partitions ++ [(id1, ⟨false, [], []⟩)])),
            incognitoSessions := (setAdd (st0.incognitoSessions ++ [id1]) id2).erase id1,
            activeSessions := alistErase
              (alistInsert (alistInsert st0.activeSessions id1 id1) id2 id2) id1 } := by
    unfold SessionManager.destroyIncognitoSession
    rw [if_pos hmemI2]
    simp only [hact12]
  constructor
  · simpa [SessionManager.createIncognitoSession] using hid
  · simp only [e1, e2, e3]
    refine ⟨?_, ?_, ?_, ?_, ?_, ?_, ?_⟩
    · rw [alistLookup_clearData_self, hlookP2]
      rfl
    · intro p hp
      exact alistLookup_clearData_ne _ _ _ hp
    · trivial
    · exact alistLookup_erase_self _ _
    · unfold setAdd
      by_cases h2 : id2 ∈ st0.incognitoSessions ++ [id1]
      · rw [if_pos h2, List.erase_append_right _ hinc1, List.erase_cons_head]
        simpa using hinc1
      · rw [if_neg h2, List.append_assoc, List.erase_append_right _ hinc1]
        simp only [List.cons_append, List.nil_append, List.erase_cons_head]
        simp [hinc1, hid]
    · rw [alistLookup_erase_ne _ _ _ (Ne.symm hid), alistLookup_insert_self]
    · exact (List.mem_erase_of_ne (Ne.symm hid)).2 (mem_setAdd_self _ _)

/-- Witness for C3 on the empty registry with concrete raw id material. -/
theorem c3_private_context_isolation_w :
    ("incognito-1-a" : String) ≠ "incognito-2-b"
    ∧ alistLookup (SessionManager.destroyIncognitoSession "incognito-1-a"
        (SessionManager.createIncognitoSession "2" "b"
          (SessionManager.createIncognitoSession "1" "a" emptySM).1).1).partitions
        "incognito-1-a" = some ⟨false, [], []⟩
    ∧ "incognito-1-a" ∉ (SessionManager.destroyIncognitoSession "incognito-1-a"
        (SessionManager.createIncognitoSession "2" "b"
          (SessionManager.createIncognitoSession "1" "a" emptySM).1).1).incognitoSessions
    ∧ "incognito-2-b" ∈ (SessionManager.destroyIncognitoSession "incognito-1-a"
        (SessionManager.createIncognitoSession "2" "b"
          (SessionManager.createIncognitoSession "1" "a" emptySM).1).1).incognitoSessions := by
  have h := c3_private_context_isolation emptySM "1" "a" "2" "b"
    (by decide) (by decide) (Or.inl (by decide)) (by decide) (by decide)
  exact ⟨h.1, h.2.1, h.2.2.2.2.2.1, h.2.2.2.2.2.2.2⟩

theorem deactivate_lookup_self (l : String) (st : TMState) :
    alistLookup (TabManager.deactivateCurrent l st).tabs l = alistLookup st.tabs l := by
  unfold TabManager.deactivateCurrent
  cases hc : st.activeTabId with
  | none => rfl
  | some cur =>
    by_cases he : cur = l
    · simp [he]
    · cases hl : alistLookup st.tabs cur with
      | some ct => simp [he, hl, alistLookup_insert_ne _ _ _ _ (Ne.symm he)]
      | none => simp [he, hl]

theorem deactivate_absent (tabId k : String) (st : TMState)
    (hk : alistLookup st.tabs k = none) :
    alistLookup (TabManager.deactivateCurrent tabId st).tabs k = none := by
  unfold TabManager.deactivateCurrent
  cases hc : st.activeTabId with
  | none => exact hk
  | some cur =>
    by_cases he : cur = tabId
    · simp [he, hk]
    · cases hl : alistLookup st.tabs cur with
      | some ct =>
        have hcur : ¬ k = cur := by
          intro hh
          rw [hh] at hk
          rw [hk] at hl
          exact Option.noConfusion hl
        simp [he, hl, alistLookup_insert_ne _ _ _ _ hcur, hk]
      | none => simp [he, hl, hk]

theorem activateTab_absent (l k : String) (st : TMState)
    (hk : alistLookup st.tabs k = none) (hne : k ≠ l) :
    alistLookup ((TabManager.activateTab l st).1).tabs k = none := by
  unfold TabManager.activateTab
  have h1 : alistLookup (TabManager.deactivateCurrent l st).tabs k = none :=
    deactivate_absent _ _ _ hk
  split
  · exact hk
  · cases hm : alistLookup (TabManager.deactivateCurrent l st).tabs l with
    | some tab => simp [hm, TabManager.notifyLog, alistLookup_insert_ne _ _ _ _ hne, h1]
    | none => simp [hm, h1]

theorem activateTab_success (l : String) (st : TMState) (v : Tab)
    (hv : alistLookup st.tabs l = some v) (hpw : st.hasParentWindow = true) :
    ((TabManager.activateTab l st).1).activeTabId = some l
    ∧ (TabManager.activateTab l st).2 = true := by
  unfold TabManager.activateTab
  have hl1 : alistLookup (TabManager.deactivateCurrent l st).tabs l = some v := by
    rw [deactivate_lookup_self]
    exact hv
  simp [hv, hpw, hl1, TabManager.notifyLog]

theorem createTab_absent (newId k : String) (tok : String × String) (now url pid : String)
    (inc act : Bool) (st : TMState)
    (hk : alistLookup st.tabs k = none) (hne : k ≠ newId) :
    alistLookup ((TabManager.createTab newId tok now url pid inc act st).1).tabs k = none := by
  unfold TabManager.createTab
  have h1 : ∀ tabrec : Tab, alistLookup (alistInsert st.tabs newId tabrec) k = none := by
    intro t
    rw [alistLookup_insert_ne _ _ _ _ hne]
    exact hk
  cases act with
  | false => simp [TabManager.notifyLog, h1]
  | true =>
    simp only [TabManager.notifyLog]
    exact activateTab_absent _ _ _ (h1 _) hne

theorem closeTab_absent (st : TMState) (tabId freshId now : String)
    (hfresh : freshId ≠ tabId) :
    alistLookup ((TabManager.closeTab freshId now tabId st).1).tabs tabId = none := by
  unfold TabManager.closeTab
  cases hl : alistLookup st.tabs tabId with
  | none => exact hl
  | some tab =>
    have he : alistLookup (alistErase st.tabs tabId) tabId = none :=
      alistLookup_erase_self _ _
    dsimp only
    by_cases hact : st.activeTabId = some tabId
    · rw [if_pos hact]
      cases hlast : ((alistErase st.tabs tabId).map Prod.fst).getLast? with
      | some lastId =>
        have hne : tabId ≠ lastId :=
          Ne.symm (alistErase_keys_ne (List.mem_of_mem_getLast? hlast))
        simp only [hlast, TabManager.notifyLog]
        exact activateTab_absent _ _ _ he hne
      | none =>
        simp only [hlast, TabManager.notifyLog]
        exact createTab_absent _ _ _ _ _ _ _ _ _ he (Ne.symm hfresh)
    · rw [if_neg hact]
      exact he

/-- C9: once a tab id has been closed, it is gone from the registry for
good, and a render-host update arriving for it afterwards is silently
dropped: updateTab yields null and returns the state unchanged, so no
tab-updated notification is published and the tab is not resurrected. -/
theorem c9_events_after_close_dropped (st : TMState) (tabId freshId now : String)
    (u : TabManager.TabUpdates) (hfresh : freshId ≠ tabId) :
    alistLookup ((TabManager.closeTab freshId now tabId st).1).tabs tabId = none
    ∧ TabManager.updateTab tabId u ((TabManager.closeTab freshId now tabId st).1)
        = ((TabManager.closeTab freshId now tabId st).1, none) := by
  have habs := closeTab_absent st tabId freshId now hfresh
  refine ⟨habs, ?_⟩
  unfold TabManager.updateTab
  rw [habs]

/-- Witness for C9: closing the only tab of a concrete state and then
replaying an update for the closed id. -/
theorem c9_events_after_close_dropped_w :
    alistLookup ((TabManager.closeTab "F" "" "A" demoSt1).1).tabs "A" = none
    ∧ TabManager.updateTab "A" TabManager.noUpdates (TabManager.closeTab "F" "" "A" demoSt1).1
        = ((TabManager.closeTab "F" "" "A" demoSt1).1, none) :=
  c9_events_after_close_dropped demoSt1 "A" "F" "" TabManager.noUpdates (by decide)

/-- C4 as amended: when the active tab is closed and tabs remain, the new
active selection is always the last remaining tab in insertion (creation)
order of the registry, not the one at the closed tab's index position; in
particular, with exactly one other tab remaining, that tab becomes
active. -/
theorem c4_close_activates_last (st : TMState) (tabId freshId now lastId : String)
    (tab : Tab)
    (hpw : st.hasParentWindow = true)
    (hmem : alistLookup st.tabs tabId = some tab)
    (hact : st.activeTabId = some tabId)
    (hlast : ((alistErase st.tabs tabId).map Prod.fst).getLast? = some lastId) :
    ((TabManager.closeTab freshId now tabId st).1).activeTabId = some lastId
    ∧ (TabManager.closeTab freshId now tabId st).2 = true := by
  unfold TabManager.closeTab
  obtain ⟨v, hv⟩ := alistLookup_mem_keys (List.mem_of_mem_getLast? hlast)
  have hsucc := activateTab_success lastId
    { st with
        sm := if tab.isIncognito && !(tab.sessionId = "") then
                SessionManager.destroyIncognitoSession tab.sessionId st.sm
              else st.sm,
        tabs := alistErase st.tabs tabId,
        views := st.views.erase tabId } v hv hpw
  rw [hmem]
  dsimp only
  rw [if_pos hact]
  simp only [hlast, TabManager.notifyLog]
  exact ⟨hsucc.1, trivial⟩

/-- Witness for C4: in a three-tab state with the first tab active,
closing it activates the third (last) tab. -/
theorem c4_close_activates_last_w :
    ((TabManager.closeTab "F" "" "A" demoSt3).1).activeTabId = some "C"
    ∧ (TabManager.closeTab "F" "" "A" demoSt3).2 = true :=
  c4_close_activates_last demoSt3 "A" "F" "" "C" (demoTab "A" true)
    (by decide) (by decide) (by decide) (by decide)

/-- Counterexample to C4 as stated: with tabs created in order A, B, C and
A active, closing A activates C, the last remaining tab, not B, the tab at
the closed tab's index position. -/
theorem c4_counterexample :
    ((TabManager.closeTab "F" "" "A" demoSt3).1).activeTabId ≠ some "B"
    ∧ ((TabManager.closeTab "F" "" "A" demoSt3).1).activeTabId = some "C" := by
  decide

/-- C5 as amended: closeTab on the last remaining tab does not hand the
fresh-tab decision to the caller: it clears the active selection and then
itself creates and activates a fresh default tab (url horizon://newtab),
and its return value is the boolean true, not a next-active id. -/
theorem c5_close_last_creates_default (st : TMState) (tabId freshId now : String)
    (tab : Tab)
    (hpw : st.hasParentWindow = true)
    (honly : st.tabs = [(tabId, tab)])
    (hact : st.activeTabId = some tabId) :
    ((TabManager.closeTab freshId now tabId st).1).tabs.map Prod.fst = [freshId]
    ∧ ((TabManager.closeTab freshId now tabId st).1).activeTabId = some freshId
    ∧ (alistLookup ((TabManager.closeTab freshId now tabId st).1).tabs freshId).map Tab.url
        = some "horizon://newtab"
    ∧ (TabManager.closeTab freshId now tabId st).2 = true := by
  have hmem : alistLookup st.tabs tabId = some tab := by
    rw [honly]
    simp [alistLookup]
  have herase : alistErase st.tabs tabId = [] := by
    rw [honly]
    simp [alistErase]
  unfold TabManager.closeTab
  rw [hmem]
  dsimp only
  rw [if_pos hact, herase]
  simp [TabManager.createTab, TabManager.activateTab, TabManager.deactivateCurrent,
        TabManager.notifyLog, alistInsert, alistLookup, hpw]

/-- Witness for C5 on a concrete one-tab state. -/
theorem c5_close_last_creates_default_w :
    ((TabManager.closeTab "F" "" "A" demoSt1).1).tabs.map Prod.fst = ["F"]
    ∧ ((TabManager.closeTab "F" "" "A" demoSt1).1).activeTabId = some "F"
    ∧ (alistLookup ((TabManager.closeTab "F" "" "A" demoSt1).1).tabs "F").map Tab.url
        = some "horizon://newtab"
    ∧ (TabManager.closeTab "F" "" "A" demoSt1).2 = true :=
  c5_close_last_creates_default demoSt1 "A" "F" "" (demoTab "A" true)
    (by decide) (by decide) (by decide)

/-- Counterexample to C5 as stated: closing the only tab of a concrete
state does not leave the decision to the caller: the result state already
holds a freshly created tab F and F is the new active selection. -/
theorem c5_counterexample :
    ((TabManager.closeTab "F" "" "A" demoSt1).1).tabs.map Prod.fst = ["F"]
    ∧ ((TabManager.closeTab "F" "" "A" demoSt1).1).activeTabId = some "F"
    ∧ ((TabManager.closeTab "F" "" "A" demoSt1).1).activeTabId ≠ none := by
  decide

/-- C10: a listener that throws is caught and swallowed by notifyListeners:
the listeners after it still run in registration order with their effects
intact, the throwing listener contributes nothing, and nothing propagates
to the caller. -/
theorem c10_listener_error_isolated (ls1 ls2 : List TabManager.Listener)
    (f : TabManager.Listener) (e : String) (d : Tab) (msg : String)
    (hf : f e d = .error msg) :
    TabManager.notifyListeners (ls1 ++ f :: ls2) e d
      = TabManager.notifyListeners ls1 e d ++ TabManager.notifyListeners ls2 e d := by
  induction ls1 with
  | nil => simp [TabManager.notifyListeners, hf]
  | cons g t ih => simp [TabManager.notifyListeners, ih, List.append_assoc]

/-- Witness for C10: a throwing listener between two recording listeners
leaves both recorded effects in place. -/
theorem c10_listener_error_isolated_w :
    TabManager.notifyListeners ([okListener] ++ throwListener :: [okListener])
        "tab-updated" DEFAULT_TAB_CONFIG
      = TabManager.notifyListeners [okListener] "tab-updated" DEFAULT_TAB_CONFIG
        ++ TabManager.notifyListeners [okListener] "tab-updated" DEFAULT_TAB_CONFIG :=
  c10_listener_error_isolated [okListener] [okListener] throwListener
    "tab-updated" DEFAULT_TAB_CONFIG "listener failure" rfl
